import Mathlib

/- Verification development for the IBM article recommender
   (clean_data.py and recommender.py): a shallow embedding of the
   cleaning pipeline and of the recommendation engine, with theorems
   settling the specification's claims about them. -/

/-- A row of the clean user-item interaction table
    (columns user_id, article_id, title, as produced by clean_data). -/
structure Row where
  user_id : Nat
  article_id : Nat
  title : String
  deriving DecidableEq, Repr

/-- The distinct elements of a list in first-appearance order, continuing
    from an already-collected accumulator. -/
def firstSeenFrom {α : Type} [DecidableEq α] (acc : List α) : List α → List α
  | [] => acc
  | v :: rest => firstSeenFrom (if v ∈ acc then acc else acc ++ [v]) rest

/-- The distinct elements of a list in first-appearance order. -/
def firstSeen {α : Type} [DecidableEq α] (l : List α) : List α :=
  firstSeenFrom [] l

/-- The loop of email_mapper (clean_data.py lines 29-43): walks the email
    column, keeping coded_dict (a dictionary in insertion order, modelled as
    an association list) and the counter cter; returns the encoded list and
    the final dictionary.  A value already in the dictionary reuses its code;
    a new value is entered with the current counter, which is then
    incremented. -/
def email_mapper_go : List String → List (String × Nat) → Nat → List Nat × List (String × Nat)
  | [], coded_dict, _ => ([], coded_dict)
  | val :: rest, coded_dict, cter =>
    match coded_dict.lookup val with
    | some code =>
      let r := email_mapper_go rest coded_dict cter
      (code :: r.1, r.2)
    | none =>
      let r := email_mapper_go rest (coded_dict ++ [(val, cter)]) (cter + 1)
      (cter :: r.1, r.2)

/-- email_mapper (clean_data.py lines 13-50): the list of anonymized ids, one
    per input record, starting from an empty dictionary and counter 1. -/
def email_mapper (vals : List String) : List Nat :=
  (email_mapper_go vals [] 1).1

/-- The dictionary email_mapper persists to its pickle file at the end of a
    run (clean_data.py lines 46-47): the final coded_dict. -/
def email_mapper_dict (vals : List String) : List (String × Nat) :=
  (email_mapper_go vals [] 1).2

/-- A later cleaning run with the persisted mapping of an earlier run
    available on disk.  email_mapper opens its pickle file for writing only
    (clean_data.py line 46) and initializes coded_dict to an empty dictionary
    (line 29), so the body ignores the persisted argument entirely. -/
def email_mapper_rerun (_persisted : List (String × Nat)) (vals : List String) :
    List Nat × List (String × Nat) :=
  (email_mapper vals, email_mapper_dict vals)

-- Auxiliary facts about firstSeenFrom.

theorem firstSeenFrom_extend {α : Type} [DecidableEq α] :
    ∀ (rest : List α) (acc : List α), ∃ t, firstSeenFrom acc rest = acc ++ t := by
  intro rest
  induction rest with
  | nil => intro acc; exact ⟨[], by simp [firstSeenFrom]⟩
  | cons v rest ih =>
    intro acc
    by_cases hv : v ∈ acc
    · obtain ⟨t, ht⟩ := ih acc
      exact ⟨t, by simp [firstSeenFrom, hv, ht]⟩
    · obtain ⟨t, ht⟩ := ih (acc ++ [v])
      exact ⟨[v] ++ t, by simp [firstSeenFrom, hv, ht]⟩

theorem indexOf_firstSeenFrom {α : Type} [DecidableEq α] (rest acc : List α) {v : α}
    (hv : v ∈ acc) : (firstSeenFrom acc rest).indexOf v = acc.indexOf v := by
  obtain ⟨t, ht⟩ := firstSeenFrom_extend rest acc
  rw [ht, List.indexOf_append_of_mem hv]

theorem mem_firstSeenFrom_of_mem {α : Type} [DecidableEq α] (rest acc : List α) {v : α}
    (hv : v ∈ acc) : v ∈ firstSeenFrom acc rest := by
  obtain ⟨t, ht⟩ := firstSeenFrom_extend rest acc
  rw [ht]
  exact List.mem_append_left t hv

theorem indexOf_append_singleton {α : Type} [DecidableEq α] {v : α} :
    ∀ (l : List α), v ∉ l → (l ++ [v]).indexOf v = l.length := by
  intro l
  induction l with
  | nil => intro _; simp [List.indexOf_cons]
  | cons a l ih =>
    intro hv
    have ha : a ≠ v := fun h => hv (h ▸ List.mem_cons_self a l)
    have hv' : v ∉ l := fun h => hv (List.mem_cons_of_mem a h)
    simp only [List.cons_append, List.indexOf_cons, ih hv', List.length_cons]
    have : (a == v) = false := beq_false_of_ne ha
    simp [this]

/-- The invariant of the email_mapper loop: if coded_dict realizes the
    rank-map of the distinct values p seen so far and cter is the next free
    id, then the output codes each remaining value by its rank in the final
    first-appearance list, and the final dictionary is the rank-map of that
    final list. -/
theorem email_mapper_go_spec :
    ∀ (rest : List String) (coded_dict : List (String × Nat)) (p : List String),
    (∀ v, coded_dict.lookup v = if v ∈ p then some (p.indexOf v + 1) else none) →
    (email_mapper_go rest coded_dict (p.length + 1)).1
        = rest.map (fun v => (firstSeenFrom p rest).indexOf v + 1)
    ∧ ∀ v, (email_mapper_go rest coded_dict (p.length + 1)).2.lookup v
        = if v ∈ firstSeenFrom p rest then some ((firstSeenFrom p rest).indexOf v + 1)
          else none := by
  intro rest
  induction rest with
  | nil =>
    intro coded_dict p hdict
    exact ⟨rfl, fun v => by simpa [email_mapper_go, firstSeenFrom] using hdict v⟩
  | cons val rest ih =>
    intro coded_dict p hdict
    by_cases hval : val ∈ p
    · have hlook : coded_dict.lookup val = some (p.indexOf val + 1) := by
        rw [hdict val]; simp [hval]
      have hfs : firstSeenFrom p (val :: rest) = firstSeenFrom p rest := by
        simp [firstSeenFrom, hval]
      obtain ⟨ih1, ih2⟩ := ih coded_dict p hdict
      constructor
      · show (email_mapper_go (val :: rest) coded_dict (p.length + 1)).1 = _
        simp only [email_mapper_go, hlook, hfs, List.map_cons]
        rw [ih1, indexOf_firstSeenFrom rest p hval]
      · intro v
        show (email_mapper_go (val :: rest) coded_dict (p.length + 1)).2.lookup v = _
        simp only [email_mapper_go, hlook, hfs]
        exact ih2 v
    · have hlook : coded_dict.lookup val = none := by
        rw [hdict val]; simp [hval]
      have hfs : firstSeenFrom p (val :: rest) = firstSeenFrom (p ++ [val]) rest := by
        simp [firstSeenFrom, hval]
      have hdict' : ∀ v, (coded_dict ++ [(val, p.length + 1)]).lookup v
          = if v ∈ p ++ [val] then some ((p ++ [val]).indexOf v + 1) else none := by
        intro v
        rw [List.lookup_append]
        by_cases hvp : v ∈ p
        · rw [hdict v]
          simp [hvp, List.indexOf_append_of_mem hvp]
        · by_cases hvv : v = val
          · subst hvv
            rw [hdict v]
            simp [hvp, List.lookup, indexOf_append_singleton p hvp]
          · rw [hdict v]
            have : (v == val) = false := beq_false_of_ne hvv
            simp [hvp, hvv, List.lookup, this]
      have hlen : (p ++ [val]).length = p.length + 1 := by simp
      obtain ⟨ih1, ih2⟩ := by
        have := ih (coded_dict ++ [(val, p.length + 1)]) (p ++ [val]) hdict'
        rw [hlen] at this
        exact this
      have hvmem : val ∈ p ++ [val] := by simp
      constructor
      · show (email_mapper_go (val :: rest) coded_dict (p.length + 1)).1 = _
        simp only [email_mapper_go, hlook, hfs, List.map_cons]
        rw [ih1, indexOf_firstSeenFrom rest (p ++ [val]) hvmem,
          indexOf_append_singleton p hval]
      · intro v
        show (email_mapper_go (val :: rest) coded_dict (p.length + 1)).2.lookup v = _
        simp only [email_mapper_go, hlook, hfs]
        exact ih2 v

/-- The codes email_mapper emits are the 1-based ranks of each value in the
    first-appearance list of the input. -/
theorem email_mapper_eq_rank (xs : List String) :
    email_mapper xs = xs.map (fun v => (firstSeen xs).indexOf v + 1) :=
  (email_mapper_go_spec xs [] [] (fun v => by simp [List.lookup])).1

/-- The persisted dictionary maps each first-seen value to its 1-based rank
    and holds nothing else. -/
theorem email_mapper_dict_spec (xs : List String) (v : String) :
    (email_mapper_dict xs).lookup v
      = if v ∈ firstSeen xs then some ((firstSeen xs).indexOf v + 1) else none :=
  (email_mapper_go_spec xs [] [] (fun w => by simp [List.lookup])).2 v

theorem firstSeenFrom_nodup {α : Type} [DecidableEq α] :
    ∀ (rest acc : List α), acc.Nodup → (firstSeenFrom acc rest).Nodup := by
  intro rest
  induction rest with
  | nil => intro acc h; simpa [firstSeenFrom] using h
  | cons v rest ih =>
    intro acc h
    by_cases hv : v ∈ acc
    · simpa [firstSeenFrom, hv] using ih acc h
    · have hvnd : (acc ++ [v]).Nodup := by
        simp [List.nodup_append, h, hv]
      simpa [firstSeenFrom, hv] using ih (acc ++ [v]) hvnd

theorem mem_firstSeenFrom {α : Type} [DecidableEq α] :
    ∀ (rest acc : List α) (v : α), v ∈ firstSeenFrom acc rest ↔ v ∈ acc ∨ v ∈ rest := by
  intro rest
  induction rest with
  | nil => intro acc v; simp [firstSeenFrom]
  | cons w rest ih =>
    intro acc v
    by_cases hw : w ∈ acc
    · have hfs : firstSeenFrom acc (w :: rest) = firstSeenFrom acc rest := by
        simp [firstSeenFrom, hw]
      rw [hfs, ih]
      simp only [List.mem_cons]
      constructor
      · rintro (h | h)
        exacts [Or.inl h, Or.inr (Or.inr h)]
      · rintro (h | h | h)
        exacts [Or.inl h, Or.inl (h ▸ hw), Or.inr h]
    · have hfs : firstSeenFrom acc (w :: rest) = firstSeenFrom (acc ++ [w]) rest := by
        simp [firstSeenFrom, hw]
      rw [hfs, ih]
      simp only [List.mem_append, List.mem_singleton, List.mem_cons]
      tauto

theorem email_mapper_mem_iff (xs : List String) (k : Nat) :
    k ∈ email_mapper xs ↔ 1 ≤ k ∧ k ≤ (firstSeen xs).length := by
  rw [email_mapper_eq_rank]
  constructor
  · intro hk
    obtain ⟨v, hv, hfv⟩ := List.mem_map.1 hk
    have hvfs : v ∈ firstSeen xs := (mem_firstSeenFrom xs [] v).2 (Or.inr hv)
    have hlt : (firstSeen xs).indexOf v < (firstSeen xs).length :=
      List.indexOf_lt_length.2 hvfs
    omega
  · rintro ⟨h1, h2⟩
    have hj : k - 1 < (firstSeen xs).length := by omega
    have hvfs : (firstSeen xs).get ⟨k - 1, hj⟩ ∈ firstSeen xs := List.get_mem _ _ _
    have hvxs : (firstSeen xs).get ⟨k - 1, hj⟩ ∈ xs := by
      rcases (mem_firstSeenFrom xs [] _).1 hvfs with h | h
      · exact absurd h (List.not_mem_nil _)
      · exact h
    have hnd : (firstSeen xs).Nodup := firstSeenFrom_nodup xs [] List.nodup_nil
    have hidx : (firstSeen xs).indexOf ((firstSeen xs).get ⟨k - 1, hj⟩) = k - 1 :=
      List.get_indexOf hnd ⟨k - 1, hj⟩
    refine List.mem_map.2 ⟨(firstSeen xs).get ⟨k - 1, hj⟩, hvxs, ?_⟩
    rw [hidx]
    omega

/-- C5: email_mapper maps an ordered sequence of raw identifiers to a
    same-length sequence of ids; each position's id is the 1-based rank of
    its identifier in first-appearance order (so a first occurrence takes the
    next unused integer starting at 1 and every later occurrence repeats it),
    the ids realized are exactly the dense range 1..K for K distinct
    identifiers, and the input [a, b, a, c] yields [1, 2, 1, 3]. -/
theorem email_mapper_first_seen_ranks :
    (∀ xs : List String,
        (email_mapper xs).length = xs.length
        ∧ email_mapper xs = xs.map (fun v => (firstSeen xs).indexOf v + 1)
        ∧ (∀ k : Nat, k ∈ email_mapper xs ↔ 1 ≤ k ∧ k ≤ (firstSeen xs).length))
    ∧ email_mapper ["a", "b", "a", "c"] = [1, 2, 1, 3] := by
  refine ⟨fun xs => ⟨?_, email_mapper_eq_rank xs, email_mapper_mem_iff xs⟩, rfl⟩
  rw [email_mapper_eq_rank]
  exact List.length_map _ _

/-- C8 counterexample: after a run on [a, b] the persisted mapping sends b
    to 2, yet a later run on input [b] assigns b the id 1 even with that
    mapping available — the persisted mapping is never read back. -/
theorem email_mapper_rerun_forgets_ids :
    (email_mapper_dict ["a", "b"]).lookup "b" = some 2
    ∧ (email_mapper_rerun (email_mapper_dict ["a", "b"]) ["b"]).1 = [1] :=
  ⟨rfl, rfl⟩

/-- C8 amended: a later run of email_mapper ignores any persisted mapping —
    its output is the plain single-run encoding of its own input, and the
    mapping it persists sends each identifier to its 1-based first-appearance
    rank in that input alone, so an identifier keeps its previous id exactly
    when that rank coincides with it (in particular, an identical input
    sequence reproduces all previous ids). -/
theorem email_mapper_rerun_from_scratch (persisted : List (String × Nat))
    (xs : List String) :
    (email_mapper_rerun persisted xs).1 = email_mapper xs
    ∧ ∀ v, ((email_mapper_rerun persisted xs).2).lookup v
        = if v ∈ firstSeen xs then some ((firstSeen xs).indexOf v + 1) else none :=
  ⟨rfl, fun v => email_mapper_dict_spec xs v⟩

/-- A row of the raw user-item interaction source (clean_data.py line 68):
    the email may be null, the other columns are as in the clean table. -/
structure RawRow where
  email : Option String
  article_id : Nat
  title : String
  deriving DecidableEq, Repr

/-- A row of the raw articles source (clean_data.py line 82); further item
    attribute columns pass through cleaning unchanged and are omitted. -/
structure ItemRow where
  article_id : Nat
  title : String
  deriving DecidableEq, Repr

/-- drop_duplicates on article_id keeping the first occurrence
    (clean_data.py line 87). -/
def dedup_items : List ItemRow → List Nat → List ItemRow
  | [], _ => []
  | r :: rest, seen =>
    if r.article_id ∈ seen then dedup_items rest seen
    else r :: dedup_items rest (r.article_id :: seen)

/-- clean_data (clean_data.py lines 53-89): drop interaction rows whose email
    is null, encode the surviving emails with email_mapper into user_id and
    drop the email column; deduplicate the articles source on article_id
    keeping first occurrences. -/
def clean_data (user_item : List RawRow) (articles : List ItemRow) :
    List Row × List ItemRow :=
  let kept := user_item.filter (fun r => r.email.isSome)
  let ids := email_mapper (kept.map (fun r => r.email.getD ""))
  (List.zipWith (fun r id => Row.mk id r.article_id r.title) kept ids,
   dedup_items articles [])

/-- The view_count cell the pivot aggregates for the pair (u, a): the number
    of clean interaction rows with that user id and article id
    (clean_data.py lines 108-110). -/
def view_count (df : List Row) (u a : Nat) : Nat :=
  (df.filter (fun r => r.user_id == u && r.article_id == a)).length

/-- create_user_item_matrix (clean_data.py lines 93-115) as a cell lookup:
    the pivot_table cell for (u, a) holds the summed view count where the
    pair occurs and NaN where it does not, and "(pivot >= 1) * 1" turns it
    into 1 exactly when the count is at least one and 0 otherwise. -/
def create_user_item_matrix (df : List Row) (u a : Nat) : Nat :=
  if 1 ≤ view_count df u a then 1 else 0

/-- The realized matrix rows: the distinct user ids of the clean table in
    the ascending order the pivot index carries. -/
def matrix_users (df : List Row) : List Nat :=
  List.insertionSort (fun x y => x ≤ y) (firstSeen (df.map (fun r => r.user_id)))

/-- The realized matrix columns: the distinct article ids of the clean table
    in the ascending order the pivot columns carry. -/
def matrix_articles (df : List Row) : List Nat :=
  List.insertionSort (fun x y => x ≤ y) (firstSeen (df.map (fun r => r.article_id)))

/-- C4: the matrix cell of every (user, article) pair occurring in the clean
    table is 1; the cell of every realized pair not occurring in the table
    is 0; and every cell is exactly 0 or 1, never a larger count. -/
theorem create_user_item_matrix_binary (df : List Row) (u a : Nat) :
    ((∃ r ∈ df, r.user_id = u ∧ r.article_id = a) → create_user_item_matrix df u a = 1)
    ∧ (u ∈ matrix_users df → a ∈ matrix_articles df →
        (¬ ∃ r ∈ df, r.user_id = u ∧ r.article_id = a) →
        create_user_item_matrix df u a = 0)
    ∧ (create_user_item_matrix df u a = 0 ∨ create_user_item_matrix df u a = 1) := by
  refine ⟨?_, ?_, ?_⟩
  · rintro ⟨r, hr, h1, h2⟩
    have hmem : r ∈ df.filter (fun r => r.user_id == u && r.article_id == a) :=
      List.mem_filter.2 ⟨hr, by simp [h1, h2]⟩
    have hpos : 0 < view_count df u a :=
      List.length_pos.2 (List.ne_nil_of_mem hmem)
    simp only [create_user_item_matrix, view_count] at hpos ⊢
    rw [if_pos (Nat.one_le_iff_ne_zero.2 (Nat.pos_iff_ne_zero.1 hpos))]
  · intro _ _ habs
    have hnil : df.filter (fun r => r.user_id == u && r.article_id == a) = [] := by
      rw [List.filter_eq_nil_iff]
      intro r hr hp
      exact habs ⟨r, hr, by simpa using hp⟩
    simp [create_user_item_matrix, view_count, hnil]
  · by_cases h : 1 ≤ view_count df u a
    · exact Or.inr (by simp [create_user_item_matrix, h])
    · exact Or.inl (by simp [create_user_item_matrix, h])

/-- The Python exceptions the recommender can raise in the embedded
    fragment. -/
inductive PyError where
  | typeError
  | valueError
  deriving DecidableEq, Repr

/-- get_article_names (recommender.py lines 34-50): the titles of the
    interaction rows whose article id is in the given list, deduplicated in
    first-occurrence order as pandas unique() returns them. -/
def get_article_names (article_ids : List Nat) (df : List Row) : List String :=
  firstSeen ((df.filter (fun r => article_ids.contains r.article_id)).map
    (fun r => r.title))

/-- The view count per article: groupby('article_id').count() over the clean
    interaction table, keys in the ascending order pandas groupby yields
    (recommender.py lines 66-67 and 211-213). -/
def views_per_article (df : List Row) : List (Nat × Nat) :=
  (matrix_articles df).map
    (fun a => (a, (df.filter (fun r => r.article_id == a)).length))

/-- sort_values(by view count, ascending=False) over the grouped counts
    (recommender.py lines 68 and 215). -/
def article_views_sorted (df : List Row) : List (Nat × Nat) :=
  List.insertionSort (fun x y => y.2 ≤ x.2) (views_per_article df)

/-- get_top_articles (recommender.py lines 53-81): the titles of the n most
    viewed article ids, resolved through the deduplicated (article_id, title)
    association in first-occurrence order; an id with several distinct titles
    contributes each of them, as pandas label indexing does. -/
def get_top_articles (df : List Row) (n : Nat) : List String :=
  let top_article_ids := ((article_views_sorted df).take n).map (fun p => p.1)
  let articles_assoc := firstSeen (df.map (fun r => (r.article_id, r.title)))
  top_article_ids.flatMap
    (fun i => articles_assoc.filterMap (fun p => if p.1 = i then some p.2 else none))

/-- is_new_user (recommender.py lines 84-99): bool(np.isin(user_id,
    df['user_id'])) — true exactly when user_id OCCURS in the user id
    column, although its own docstring promises True for a new user. -/
def is_new_user (user_id : Nat) (df : List Row) : Bool :=
  df.any (fun r => r.user_id == user_id)

/-- get_user_articles (recommender.py lines 102-125) with the interaction
    matrix taken from the clean table df: the article ids of the matrix
    columns holding 1 in the user's row, and their titles.  (The source
    resolves the titles through get_article_names; its call there passes one
    argument, an arity slip settled under C10 — here the intended df is
    supplied.) -/
def get_user_articles (user_id : Nat) (df : List Row) : List Nat × List String :=
  let article_ids := (matrix_articles df).filter
    (fun a => create_user_item_matrix df user_id a == 1)
  (article_ids, get_article_names article_ids df)

/-- One row of the neighbors_df frame get_top_sorted_users returns. -/
structure Neighbor where
  neighbor_id : Nat
  similarity : Nat
  num_interactions : Nat
  deriving DecidableEq, Repr

/-- The similarity column as the source computes it (recommender.py line
    153): user_item.dot(user_item.loc[1, :]) — the dot product of user v's
    matrix row with the matrix row of the user LABELLED 1; the row label is
    hardcoded to 1, not taken from the target user argument. -/
def similarity_to_row1 (df : List Row) (v : Nat) : Nat :=
  ((matrix_articles df).map
    (fun a => create_user_item_matrix df v a * create_user_item_matrix df 1 a)).sum

/-- The similarity the specification describes for target user u: the dot
    product of v's matrix row with the target user's own matrix row. -/
def similarity_to_target (df : List Row) (v u : Nat) : Nat :=
  ((matrix_articles df).map
    (fun a => create_user_item_matrix df v a * create_user_item_matrix df u a)).sum

/-- The num_interactions column (recommender.py lines 162-165): the number of
    interaction rows each user has in the clean table. -/
def num_interactions (df : List Row) (v : Nat) : Nat :=
  (df.filter (fun r => r.user_id == v)).length

/-- The sort order of neighbors_df (recommender.py line 175): similarity
    descending first, number of interactions descending as tie-break. -/
def ranked_before (x y : Neighbor) : Prop :=
  y.similarity < x.similarity
  ∨ (x.similarity = y.similarity ∧ y.num_interactions ≤ x.num_interactions)

instance : DecidableRel ranked_before :=
  fun x y => by unfold ranked_before; infer_instance

instance : IsTotal Neighbor ranked_before :=
  ⟨fun x y => by unfold ranked_before; omega⟩

instance : IsTrans Neighbor ranked_before :=
  ⟨fun x y z hxy hyz => by unfold ranked_before at hxy hyz ⊢; omega⟩

/-- sort_values(['similarity', 'num_interactions'], ascending=[False, False])
    (recommender.py line 175). -/
def sort_neighbors (l : List Neighbor) : List Neighbor :=
  List.insertionSort ranked_before l

/-- get_top_sorted_users (recommender.py lines 128-181): one row per matrix
    user carrying the similarity column of line 153 and the interaction
    count, sorted by (similarity, num_interactions) descending, with the rows
    whose neighbor_id equals the target user removed afterwards. -/
def get_top_sorted_users (user_id : Nat) (df : List Row) : List Neighbor :=
  let neighbors_df := (matrix_users df).map
    (fun v => Neighbor.mk v (similarity_to_row1 df v) (num_interactions df v))
  (sort_neighbors neighbors_df).filter (fun x => x.neighbor_id != user_id)

/-- The user_reco_ids of one loop iteration (recommender.py line 230): the
    neighbor's article ids filtered against the target user's seen set. -/
def unseen_pool (df : List Row) (seen : List Nat) (neighbor_id : Nat) : List Nat :=
  ((get_user_articles neighbor_id df).1).filter (fun a => !seen.contains a)

/-- The user_recos of one loop iteration (recommender.py lines 233-235): the
    sorted view counts restricted to the unseen pool, projected to ids. -/
def neighbor_recos (df : List Row) (seen : List Nat) (neighbor_id : Nat) : List Nat :=
  ((article_views_sorted df).filter
    (fun p => (unseen_pool df seen neighbor_id).contains p.1)).map (fun p => p.1)

/-- The neighbor loop of user_user_recs (recommender.py lines 225-245), with
    each callee given the arguments its definition requires: for each
    neighbor in ranked order, the neighbor's articles not seen by the target
    user, ordered by global view count, are appended (titles alongside); the
    loop stops once the id list reaches m. -/
def user_user_recs_go (df : List Row) (seen : List Nat) (m : Nat) :
    List Nat → List Nat × List String → List Nat × List String
  | [], acc => acc
  | neighbor_id :: rest, acc =>
    let user_recos := neighbor_recos df seen neighbor_id
    let acc2 := (acc.1 ++ user_recos, acc.2 ++ get_article_names user_recos df)
    if m ≤ acc2.1.length then acc2 else user_user_recs_go df seen m rest acc2

/-- user_user_recs (recommender.py lines 184-247) as the computation its
    body performs once every call site passes the arguments its callee
    requires (the arity slips themselves are settled under C10): filter each
    ranked neighbor's articles against the target user's own seen set,
    accumulate across neighbors, truncate both lists to m. -/
def user_user_recs_logic (user_id : Nat) (df : List Row) (m : Nat) :
    List Nat × List String :=
  let seen_article_ids := (get_user_articles user_id df).1
  let neighbors_df := get_top_sorted_users user_id df
  let r := user_user_recs_go df seen_article_ids m
    (neighbors_df.map (fun x => x.neighbor_id)) ([], [])
  (r.1.take m, r.2.take m)

/-- Python arity checking at a call site: a call giving fewer positional
    arguments than the callee's definition requires raises TypeError before
    the callee body runs. -/
def py_call_arity (required given : Nat) : Except PyError Unit :=
  if given < required then Except.error PyError.typeError else Except.ok ()

/-- user_user_recs (recommender.py lines 184-247) as executed: line 208
    calls get_user_articles with one argument against the two its definition
    (line 102) requires; line 218 calls get_top_sorted_users with one
    argument against three (line 128); line 237 calls get_article_names with
    one argument against two (line 34).  Only if all those calls were
    well-formed would the loop's computation (user_user_recs_logic) be
    reached. -/
def user_user_recs (user_id : Nat) (df : List Row) (m : Nat) :
    Except PyError (List Nat × List String) := do
  let _ ← py_call_arity 2 1
  let _ ← py_call_arity 3 1
  let _ ← py_call_arity 2 1
  Except.ok (user_user_recs_logic user_id df m)

/-- The value of a decimal digit character, if it is one. -/
def digit_val (c : Char) : Option Nat :=
  if 48 ≤ c.toNat ∧ c.toNat ≤ 57 then some (c.toNat - 48) else none

/-- The value of a nonempty run of decimal digits, left to right. -/
def digits_val (acc : Nat) : List Char → Option Nat
  | [] => some acc
  | c :: cs =>
    match digit_val c with
    | some d => digits_val (acc * 10 + d) cs
    | none => none

/-- Python's int() on a command-line argument: an optional minus sign
    followed by at least one decimal digit parses to the integer, anything
    else raises ValueError. -/
def py_int (s : String) : Except PyError Int :=
  match s.toList with
  | [] => Except.error PyError.valueError
  | c :: cs =>
    if c = '-' then
      match cs with
      | [] => Except.error PyError.valueError
      | _ :: _ =>
        match digits_val 0 cs with
        | some n => Except.ok (-(n : Int))
        | none => Except.error PyError.valueError
    else
      match digits_val 0 (c :: cs) with
      | some n => Except.ok (n : Int)
      | none => Except.error PyError.valueError

/-- The observable outcome of a run of recommender.py's main: usage text
    with no artifact touched, an uncaught exception, or the printed
    recommendations of one of the two paths. -/
inductive RecOutcome where
  | usage
  | error (e : PyError)
  | top_articles (titles : List String)
  | user_recs (recs : List Nat) (names : List String)
  deriving DecidableEq, Repr

/-- main (recommender.py lines 250-278), given the clean interaction table
    that load_data would read (the loaded item table and matrix are passed to
    no later call).  With three argv entries both positional arguments go
    through int(); then is_new_user picks the branch: true (the user id
    occurs in the table) runs get_top_articles, false runs user_user_recs.
    A negative parsed id, which no clean table realizes, is modelled by
    toNat. -/
def recommender_main (argv : List String) (df : List Row) : RecOutcome :=
  if argv.length = 3 then
    match py_int (argv.getD 1 ""), py_int (argv.getD 2 "") with
    | Except.ok user_id, Except.ok reco_count =>
      if is_new_user user_id.toNat df then
        RecOutcome.top_articles (get_top_articles df reco_count.toNat)
      else
        match user_user_recs user_id.toNat df reco_count.toNat with
        | Except.error e => RecOutcome.error e
        | Except.ok r => RecOutcome.user_recs r.1 r.2
    | Except.error e, _ => RecOutcome.error e
    | _, Except.error e => RecOutcome.error e
  else RecOutcome.usage

/-- The observable outcome of a run of clean_data.py's main: usage text with
    nothing read or written, or the three saved artifacts (clean interaction
    table, clean item table, realized interaction matrix). -/
inductive CleanOutcome where
  | usage
  | saved (user_item : List Row) (items : List ItemRow) (matrix : List (List Nat))
  deriving DecidableEq, Repr

/-- main (clean_data.py lines 151-179): with three argv entries it cleans
    the two raw sources, builds the matrix and saves all three artifacts;
    with any other count it prints usage and performs no work. -/
def clean_data_main (argv : List String) (user_item : List RawRow)
    (articles : List ItemRow) : CleanOutcome :=
  if argv.length = 3 then
    let cleaned := clean_data user_item articles
    CleanOutcome.saved cleaned.1 cleaned.2
      ((matrix_users cleaned.1).map
        (fun u => (matrix_articles cleaned.1).map
          (fun a => create_user_item_matrix cleaned.1 u a)))
  else CleanOutcome.usage

-- Facts about the recommendation loop.

theorem mem_neighbor_recos (df : List Row) (seen : List Nat) (n a : Nat) :
    a ∈ neighbor_recos df seen n ↔ a ∈ (get_user_articles n df).1 ∧ a ∉ seen := by
  constructor
  · intro h
    simp only [neighbor_recos] at h
    obtain ⟨p, hp, hpa⟩ := List.mem_map.1 h
    obtain ⟨_, hpc⟩ := List.mem_filter.1 hp
    have hau : p.1 ∈ unseen_pool df seen n := by simpa using hpc
    rw [hpa] at hau
    simp only [unseen_pool] at hau
    obtain ⟨h1, h2⟩ := List.mem_filter.1 hau
    exact ⟨h1, by simpa using h2⟩
  · rintro ⟨h1, h2⟩
    have hma : a ∈ matrix_articles df := by
      have := h1
      simp only [get_user_articles] at this
      exact (List.mem_filter.1 this).1
    have hau : a ∈ unseen_pool df seen n := by
      simp only [unseen_pool]
      exact List.mem_filter.2 ⟨h1, by simpa using h2⟩
    have hvp : (a, (df.filter (fun r => r.article_id == a)).length)
        ∈ views_per_article df := by
      simp only [views_per_article]
      exact List.mem_map.2 ⟨a, hma, rfl⟩
    have hs : (a, (df.filter (fun r => r.article_id == a)).length)
        ∈ article_views_sorted df := by
      simp only [article_views_sorted]
      exact (List.perm_insertionSort _ _).mem_iff.2 hvp
    simp only [neighbor_recos]
    exact List.mem_map.2 ⟨(a, (df.filter (fun r => r.article_id == a)).length),
      List.mem_filter.2 ⟨hs, by simpa using hau⟩, rfl⟩

theorem user_user_recs_go_mono (df : List Row) (seen : List Nat) (m : Nat) :
    ∀ (ns : List Nat) (acc : List Nat × List String) (a : Nat),
    a ∈ acc.1 → a ∈ (user_user_recs_go df seen m ns acc).1 := by
  intro ns
  induction ns with
  | nil => intro acc a h; exact h
  | cons n rest ih =>
    intro acc a h
    simp only [user_user_recs_go]
    split
    · exact List.mem_append_left _ h
    · exact ih _ a (List.mem_append_left _ h)

theorem user_user_recs_go_not_seen (df : List Row) (seen : List Nat) (m : Nat) :
    ∀ (ns : List Nat) (acc : List Nat × List String) (a : Nat),
    a ∈ (user_user_recs_go df seen m ns acc).1 → a ∈ acc.1 ∨ a ∉ seen := by
  intro ns
  induction ns with
  | nil => intro acc a h; exact Or.inl h
  | cons n rest ih =>
    intro acc a h
    simp only [user_user_recs_go] at h
    have hsplit : a ∈ acc.1 ++ neighbor_recos df seen n ∨ a ∉ seen := by
      split at h
      · exact Or.inl h
      · rcases ih _ a h with h2 | h2
        · exact Or.inl h2
        · exact Or.inr h2
    rcases hsplit with h2 | h2
    · rcases List.mem_append.1 h2 with h3 | h3
      · exact Or.inl h3
      · exact Or.inr ((mem_neighbor_recos df seen n a).1 h3).2
    · exact Or.inr h2

theorem user_user_recs_go_exhaust (df : List Row) (seen : List Nat) (m : Nat) :
    ∀ (ns : List Nat) (acc : List Nat × List String),
    (user_user_recs_go df seen m ns acc).1.length < m →
    ∀ n ∈ ns, ∀ a ∈ neighbor_recos df seen n,
    a ∈ (user_user_recs_go df seen m ns acc).1 := by
  intro ns
  induction ns with
  | nil => intro acc _ n hn; exact absurd hn (List.not_mem_nil n)
  | cons n0 rest ih =>
    intro acc hlen n hn a ha
    simp only [user_user_recs_go] at hlen ⊢
    by_cases hif : m ≤ (acc.1 ++ neighbor_recos df seen n0).length
    · rw [if_pos hif] at hlen
      have hcontra : (acc.1 ++ neighbor_recos df seen n0).length < m := hlen
      omega
    · rw [if_neg hif] at hlen ⊢
      rcases List.mem_cons.1 hn with h | h
      · subst h
        exact user_user_recs_go_mono df seen m rest _ a (List.mem_append_right _ ha)
      · exact ih _ hlen n h a ha

theorem seen_of_view_count_pos (df : List Row) (u a : Nat)
    (h : 1 ≤ view_count df u a) : a ∈ (get_user_articles u df).1 := by
  have hne : df.filter (fun r => r.user_id == u && r.article_id == a) ≠ [] := by
    intro hnil
    rw [view_count, hnil] at h
    exact absurd h (by simp)
  obtain ⟨r, hr⟩ := List.exists_mem_of_ne_nil _ hne
  obtain ⟨hrdf, hrp⟩ := List.mem_filter.1 hr
  have hra : r.article_id = a := by
    have hp := hrp
    simp only [Bool.and_eq_true, beq_iff_eq] at hp
    exact hp.2
  have hfs : a ∈ firstSeen (df.map (fun r => r.article_id)) :=
    (mem_firstSeenFrom _ _ a).2 (Or.inr (List.mem_map.2 ⟨r, hrdf, hra⟩))
  have hma : a ∈ matrix_articles df := by
    rw [matrix_articles]
    exact (List.perm_insertionSort _ _).mem_iff.2 hfs
  have hentry : create_user_item_matrix df u a = 1 := by
    rw [create_user_item_matrix, if_pos h]
  show a ∈ (matrix_articles df).filter (fun a => create_user_item_matrix df u a == 1)
  exact List.mem_filter.2 ⟨hma, by simp [hentry]⟩

/-- C6: for every target user the neighbor ranking is sorted descending by
    similarity first and by interaction count as tie-break, the target user
    id never appears in it, and the triples (A,5,10), (B,5,20), (C,3,50)
    sort as [B, A, C]. -/
theorem get_top_sorted_users_ranked :
    (∀ (user_id : Nat) (df : List Row),
        List.Pairwise ranked_before (get_top_sorted_users user_id df)
        ∧ ∀ x ∈ get_top_sorted_users user_id df, x.neighbor_id ≠ user_id)
    ∧ sort_neighbors [Neighbor.mk 1 5 10, Neighbor.mk 2 5 20, Neighbor.mk 3 3 50]
        = [Neighbor.mk 2 5 20, Neighbor.mk 1 5 10, Neighbor.mk 3 3 50] := by
  refine ⟨fun user_id df => ⟨?_, ?_⟩, by decide⟩
  · show List.Pairwise ranked_before ((sort_neighbors ((matrix_users df).map
      (fun v => Neighbor.mk v (similarity_to_row1 df v) (num_interactions df v)))).filter
      (fun x => x.neighbor_id != user_id))
    exact List.Pairwise.filter _ (List.sorted_insertionSort ranked_before _)
  · intro x hx
    simp only [get_top_sorted_users] at hx
    exact bne_iff_ne.1 (List.mem_filter.1 hx).2

/-- C1: the similarity column of get_top_sorted_users is hardcoded to the
    matrix row labelled 1 (user_item.loc[1, :]), not the target user's row:
    on the clean table [(user 1, article 10), (user 2, article 20)] with
    target user 2 the code reports neighbor 1 with similarity 1 (the dot
    product of row 1 with itself), while the dot product of neighbor 1's row
    with the target user 2's own row is 0. -/
theorem get_top_sorted_users_row1_hardcoded :
    get_top_sorted_users 2 [Row.mk 1 10 "A", Row.mk 2 20 "B"] = [Neighbor.mk 1 1 1]
    ∧ similarity_to_row1 [Row.mk 1 10 "A", Row.mk 2 20 "B"] 1 = 1
    ∧ similarity_to_target [Row.mk 1 10 "A", Row.mk 2 20 "B"] 1 2 = 0 := by
  decide

/-- C10: for every input, user_user_recs raises TypeError before returning:
    its call sites pass get_user_articles, get_top_sorted_users and
    get_article_names fewer positional arguments than their definitions
    require, so the warm path never completes normally. -/
theorem user_user_recs_raises_type_error (user_id : Nat) (df : List Row) (m : Nat) :
    user_user_recs user_id df m = Except.error PyError.typeError := rfl

/-- C3 counterexample: on the clean table [(1,100), (2,200), (3,200)] with
    target user 1 and m = 5, neighbors 2 and 3 each contribute the unseen
    article 200, and the warm-path computation returns [200, 200] — a
    duplicate, because items collected from earlier neighbors are not
    excluded when processing later neighbors. -/
theorem user_user_recs_duplicate_recs :
    (user_user_recs_logic 1
        [Row.mk 1 100 "X", Row.mk 2 200 "Y", Row.mk 3 200 "Y"] 5).1 = [200, 200]
    ∧ ¬ (user_user_recs_logic 1
        [Row.mk 1 100 "X", Row.mk 2 200 "Y", Row.mk 3 200 "Y"] 5).1.Nodup := by
  decide

/-- C3 amended: the warm-path id list never contains an article the target
    user has already interacted with (every candidate is filtered against
    the user's own seen set), but it may contain duplicate ids, since items
    already collected from an earlier neighbor are not excluded when
    processing later neighbors. -/
theorem user_user_recs_no_seen_item (user_id : Nat) (df : List Row) (m : Nat) :
    ∀ a ∈ (user_user_recs_logic user_id df m).1, view_count df user_id a = 0 := by
  intro a ha
  by_contra hvc
  have hpos : 1 ≤ view_count df user_id a := Nat.one_le_iff_ne_zero.2 hvc
  have hseen : a ∈ (get_user_articles user_id df).1 :=
    seen_of_view_count_pos df user_id a hpos
  simp only [user_user_recs_logic] at ha
  have hgo : a ∈ (user_user_recs_go df (get_user_articles user_id df).1 m
      ((get_top_sorted_users user_id df).map (fun x => x.neighbor_id)) ([], [])).1 :=
    List.mem_of_mem_take ha
  rcases user_user_recs_go_not_seen df (get_user_articles user_id df).1 m _ _ a hgo with
    h | h
  · exact absurd h (List.not_mem_nil a)
  · exact h hseen

/-- C3 amended witness: on the table [(1,100), (2,200)] the warm path for
    user 1 recommends article 200, which user 1 has never interacted with. -/
theorem user_user_recs_no_seen_item_witness :
    view_count [Row.mk 1 100 "A", Row.mk 2 200 "B"] 1 200 = 0 :=
  user_user_recs_no_seen_item 1 [Row.mk 1 100 "A", Row.mk 2 200 "B"] 5 200 (by decide)

/-- C7: the warm-path id list never exceeds m entries, and it falls short of
    m only when every ranked neighbor's pool of unseen articles has been
    exhausted into it; concretely, on [(1,100), (2,200)] with m = 5 user 1
    receives the single unseen article 200. -/
theorem user_user_recs_cap :
    (∀ (user_id : Nat) (df : List Row) (m : Nat),
        (user_user_recs_logic user_id df m).1.length ≤ m
        ∧ ((user_user_recs_logic user_id df m).1.length < m →
            ∀ x ∈ get_top_sorted_users user_id df,
            ∀ a ∈ (get_user_articles x.neighbor_id df).1,
            a ∉ (get_user_articles user_id df).1 →
            a ∈ (user_user_recs_logic user_id df m).1))
    ∧ (user_user_recs_logic 1 [Row.mk 1 100 "A", Row.mk 2 200 "B"] 5).1 = [200] := by
  refine ⟨fun user_id df m => ⟨?_, ?_⟩, by decide⟩
  · simp only [user_user_recs_logic]
    rw [List.length_take]
    exact min_le_left m _
  · intro hlen x hx a hax hnot
    have hrec : a ∈ neighbor_recos df (get_user_articles user_id df).1 x.neighbor_id :=
      (mem_neighbor_recos df _ x.neighbor_id a).2 ⟨hax, hnot⟩
    simp only [user_user_recs_logic] at hlen ⊢
    rw [List.length_take] at hlen
    have hgolen : (user_user_recs_go df (get_user_articles user_id df).1 m
        ((get_top_sorted_users user_id df).map (fun x => x.neighbor_id)) ([], [])).1.length
        < m := by omega
    have hgo := user_user_recs_go_exhaust df (get_user_articles user_id df).1 m
      ((get_top_sorted_users user_id df).map (fun x => x.neighbor_id)) ([], []) hgolen
      x.neighbor_id (List.mem_map.2 ⟨x, hx, rfl⟩) a hrec
    rw [List.take_of_length_le (Nat.le_of_lt hgolen)]
    exact hgo

/-- C2: the routing of main is inverted relative to the claim: is_new_user
    answers true exactly when the user id OCCURS in the clean table, so on
    the table [(user 1, article 100 "T")] the absent user 2 is routed to the
    warm path user_user_recs — which raises TypeError — while the present
    user 1 is routed to the cold global-popularity path. -/
theorem recommender_main_routing_inverted :
    is_new_user 2 [Row.mk 1 100 "T"] = false
    ∧ recommender_main ["recommender.py", "2", "3"] [Row.mk 1 100 "T"]
        = RecOutcome.error PyError.typeError
    ∧ is_new_user 1 [Row.mk 1 100 "T"] = true
    ∧ recommender_main ["recommender.py", "1", "3"] [Row.mk 1 100 "T"]
        = RecOutcome.top_articles ["T"] := by
  decide

/-- C9 counterexample: with the right number of arguments but a non-integer
    user id, the recommendation entry point raises an uncaught ValueError
    from int() instead of printing usage text. -/
theorem recommender_main_wrong_type_raises :
    recommender_main ["recommender.py", "abc", "3"] [] = RecOutcome.error PyError.valueError
    ∧ RecOutcome.error PyError.valueError ≠ RecOutcome.usage := by
  decide

/-- C9 amended: on a wrong NUMBER of positional arguments each entry point
    prints usage text and performs no work (no artifact is read or written);
    a positional argument of the wrong type at the recommendation entry
    point is instead an uncaught ValueError (see the counterexample). -/
theorem mains_usage_on_wrong_arg_count (argv : List String) (df : List Row)
    (user_item : List RawRow) (articles : List ItemRow)
    (h : argv.length ≠ 3) :
    recommender_main argv df = RecOutcome.usage
    ∧ clean_data_main argv user_item articles = CleanOutcome.usage := by
  constructor
  · rw [recommender_main, if_neg h]
  · rw [clean_data_main, if_neg h]

/-- C9 amended witness: an argv holding the script name only. -/
theorem mains_usage_on_wrong_arg_count_witness :
    recommender_main ["recommender.py"] [] = RecOutcome.usage
    ∧ clean_data_main ["recommender.py"] [] [] = CleanOutcome.usage :=
  mains_usage_on_wrong_arg_count ["recommender.py"] [] [] [] (by decide)
